import Mathlib

/-!
Verification of the Event-Time Aggregator of the streamlit dashboard
(`src/dash1.py`).

The only algorithmic code in the repository is the cumulative-incidence
loop of `update_cumulative_incidence_curve` (dash1.py, lines 59-91): for
each treatment group it takes the group's rows, forms the ascending list
of distinct `time` values, and for each such time `t` adds
`sum(infected over rows with time >= t) / len(group rows)` to a running
total, collecting one `(t, total)` point per distinct time.

We embed the rows as `Observation` records (group, time, event), times as
rationals and the running statistic as a rational, so that the arithmetic
of the source (exact floating division on small integer counts) is
represented exactly.
-/

/-- A row of the AIDS dataframe as the aggregator sees it:
`trt` (group), `time` (days), `infected` (0/1 event indicator). -/
structure Observation where
  group : ℕ
  time : ℚ
  event : Bool
deriving DecidableEq, Repr

namespace Aggregator

/-- `treatment_data[treatment_data['time'] >= t]` : the rows whose time is
at or after `t`. -/
def patientsAtTime (obs : List Observation) (t : ℚ) : List Observation :=
  obs.filter (fun o => decide (t ≤ o.time))

/-- `sum(patients_at_time_t['infected'])` : the sum of the 0/1 event
indicators over the rows with time at or after `t`. -/
def numEventsAtTime (obs : List Observation) (t : ℚ) : ℕ :=
  ((patientsAtTime obs t).map (fun o => if o.event then 1 else 0)).sum

/-- `sorted(treatment_data['time'].unique())` : the distinct time values of
the rows, in ascending order. -/
def sortedTimes (obs : List Observation) : List ℚ :=
  List.insertionSort (· ≤ ·) (obs.map Observation.time).dedup

/-- The loop body of `update_cumulative_incidence_curve` (dash1.py
lines 70-76): walk the sorted distinct times, keep a running total
`cumulative_prob`, add `num_events_at_time_t / num_patients` at each time,
and pair each time with the total current at that time. -/
def cumIncidenceAux (obs : List Observation) (n : ℕ) :
    List ℚ → ℚ → List (ℚ × ℚ)
  | [], _ => []
  | t :: ts, acc =>
    let acc' := acc + (numEventsAtTime obs t : ℚ) / (n : ℚ)
    (t, acc') :: cumIncidenceAux obs n ts acc'

/-- The cumulative-incidence computation of dash1.py lines 63-76 for one
group's rows: `num_patients = len(treatment_data)` is fixed before the
loop, `cumulative_prob` starts at `0.0`, and the loop above produces one
`(time, statistic)` pair per distinct time. -/
def compute_cumulative_incidence (obs : List Observation) : List (ℚ × ℚ) :=
  cumIncidenceAux obs obs.length (sortedTimes obs) 0

/-- Error-aware variant of the same loop, reflecting Python's behaviour
where `x / 0` raises `ZeroDivisionError`: the division is only reached
inside the loop body, so an empty time list yields `ok []` untouched. -/
def cumIncidenceAuxE (obs : List Observation) (n : ℕ) :
    List ℚ → ℚ → Except String (List (ℚ × ℚ))
  | [], _ => Except.ok []
  | t :: ts, acc =>
    if n = 0 then Except.error "ZeroDivisionError"
    else
      let acc' := acc + (numEventsAtTime obs t : ℚ) / (n : ℚ)
      match cumIncidenceAuxE obs n ts acc' with
      | Except.ok rest => Except.ok ((t, acc') :: rest)
      | Except.error e => Except.error e

/-- `compute_cumulative_incidence` with Python's division-error semantics
made explicit. -/
def compute_cumulative_incidenceE (obs : List Observation) :
    Except String (List (ℚ × ℚ)) :=
  cumIncidenceAuxE obs obs.length (sortedTimes obs) 0

/-- Whether an `Except` result is an error. -/
def isError : Except String (List (ℚ × ℚ)) → Bool
  | Except.error _ => true
  | Except.ok _ => false

/-- `df[df['trt'] == treatment]` : the rows of one treatment group. -/
def groupObservations (cohort : List Observation) (g : ℕ) : List Observation :=
  cohort.filter (fun o => o.group == g)

/-- Modelled from the spec: the Kaplan-Meier step factor of spec §4.1,
`1 − events/at_risk`, where `at_risk` counts rows with `time >= t` and
`events` counts rows with `time >= t` and the event true. -/
def survFactor (obs : List Observation) (t : ℚ) : ℚ :=
  1 - (numEventsAtTime obs t : ℚ) / (((patientsAtTime obs t).length : ℚ))

/-- Modelled from the spec: `compute_survival_curve` (spec §4.1).  The
survival-curve draft of this repository is not among the provided source
files (only `dash1.py`, which has the cumulative-incidence loop), so the
Kaplan-Meier-style loop is taken from the spec's words: walk the sorted
distinct times, keep a running probability starting at `1.0`, and at each
time `t` multiply by `1 − events/at_risk`. -/
def survivalAux (obs : List Observation) : List ℚ → ℚ → List (ℚ × ℚ)
  | [], _ => []
  | t :: ts, p =>
    let p' := p * survFactor obs t
    (t, p') :: survivalAux obs ts p'

/-- Modelled from the spec: the survival-curve operation of spec §4.1,
running the Kaplan-Meier loop over the sorted distinct times with initial
probability `1.0`. -/
def compute_survival_curve (obs : List Observation) : List (ℚ × ℚ) :=
  survivalAux obs (sortedTimes obs) 1

/-- The spec's Scenario 1/2 input:
`[(A, t=1, event=1), (A, t=2, event=0), (A, t=3, event=1)]`. -/
def scenarioObs : List Observation :=
  [⟨0, 1, true⟩, ⟨0, 2, false⟩, ⟨0, 3, true⟩]

/-! ### Counting lemmas -/

/-- A sum of 0/1 indicators over a list is at most the list's length. -/
lemma indicatorSum_le_length :
    ∀ l : List Observation, ((l.map (fun o => if o.event then 1 else 0)).sum : ℕ) ≤ l.length := by
  intro l
  induction l with
  | nil => simp
  | cons a l ih =>
    simp only [List.map_cons, List.sum_cons, List.length_cons]
    by_cases h : a.event <;> simp [h] <;> omega

lemma numEventsAtTime_le (obs : List Observation) (t : ℚ) :
    numEventsAtTime obs t ≤ (patientsAtTime obs t).length :=
  indicatorSum_le_length _

/-- The per-step increment of the cumulative-incidence loop is nonnegative. -/
lemma incr_nonneg (obs : List Observation) (n : ℕ) (t : ℚ) :
    0 ≤ (numEventsAtTime obs t : ℚ) / (n : ℚ) :=
  div_nonneg (Nat.cast_nonneg _) (Nat.cast_nonneg _)

/-! ### Structure of the cumulative-incidence loop -/

lemma cumAux_map_fst (obs : List Observation) (n : ℕ) :
    ∀ (ts : List ℚ) (acc : ℚ),
      (cumIncidenceAux obs n ts acc).map Prod.fst = ts
  | [], _ => rfl
  | t :: ts, acc => by
    simp only [cumIncidenceAux, List.map_cons]
    rw [cumAux_map_fst obs n ts]

lemma cumAux_length (obs : List Observation) (n : ℕ) (ts : List ℚ) (acc : ℚ) :
    (cumIncidenceAux obs n ts acc).length = ts.length := by
  have h := congrArg List.length (cumAux_map_fst obs n ts acc)
  simpa using h

/-- Every statistic produced by the loop is at least the accumulator it
started from. -/
lemma cumAux_snd_ge (obs : List Observation) (n : ℕ) :
    ∀ (ts : List ℚ) (acc : ℚ),
      ∀ x ∈ (cumIncidenceAux obs n ts acc).map Prod.snd, acc ≤ x
  | [], _ => by simp [cumIncidenceAux]
  | t :: ts, acc => by
    intro x hx
    simp only [cumIncidenceAux, List.map_cons, List.mem_cons] at hx
    have hstep : acc ≤ acc + (numEventsAtTime obs t : ℚ) / (n : ℚ) := by
      have := incr_nonneg obs n t
      linarith
    rcases hx with rfl | hx
    · exact hstep
    · exact hstep.trans (cumAux_snd_ge obs n ts _ x hx)

/-- The statistics produced by the loop rise monotonically step to step. -/
lemma cumAux_chain (obs : List Observation) (n : ℕ) :
    ∀ (ts : List ℚ) (acc : ℚ),
      List.Chain' (· ≤ ·) ((cumIncidenceAux obs n ts acc).map Prod.snd)
  | [], _ => by simp [cumIncidenceAux]
  | t :: ts, acc => by
    simp only [cumIncidenceAux, List.map_cons]
    rw [List.chain'_cons']
    refine ⟨fun b hb => ?_, cumAux_chain obs n ts _⟩
    exact cumAux_snd_ge obs n ts _ b (List.mem_of_mem_head? hb)

/-- Closed form of the loop: the `i`-th pair is the `i`-th time together
with the accumulator plus the sum of the first `i+1` increments. -/
lemma cumAux_getElem? (obs : List Observation) (n : ℕ) :
    ∀ (ts : List ℚ) (acc : ℚ) (i : ℕ), i < ts.length →
      (cumIncidenceAux obs n ts acc)[i]? =
        some (ts[i]?.getD 0,
          acc + (((ts.take (i + 1)).map
            (fun t => (numEventsAtTime obs t : ℚ) / (n : ℚ))).sum))
  | [], _, i, hi => by simp at hi
  | t :: ts, acc, 0, _ => by
    simp [cumIncidenceAux]
  | t :: ts, acc, i + 1, hi => by
    simp only [cumIncidenceAux, List.getElem?_cons_succ]
    rw [cumAux_getElem? obs n ts _ i (by simpa using hi)]
    simp [List.take_succ_cons, add_assoc]

/-! ### Structure of the survival loop -/

/-- The Kaplan-Meier factor is nonnegative: either the risk set is empty
(then the quotient is `0/0 = 0` and the factor is `1`), or the event count
is at most the risk-set size. -/
lemma survFactor_nonneg (obs : List Observation) (t : ℚ) :
    0 ≤ survFactor obs t := by
  unfold survFactor
  rcases Nat.eq_zero_or_pos (patientsAtTime obs t).length with h | h
  · rw [List.length_eq_zero] at h
    simp [numEventsAtTime, h]
  · have he : (numEventsAtTime obs t : ℚ) ≤ ((patientsAtTime obs t).length : ℚ) := by
      exact_mod_cast numEventsAtTime_le obs t
    have hpos : (0 : ℚ) < ((patientsAtTime obs t).length : ℚ) := by
      exact_mod_cast h
    have hd : (numEventsAtTime obs t : ℚ) / ((patientsAtTime obs t).length : ℚ) ≤ 1 :=
      (div_le_one hpos).mpr he
    linarith

lemma survFactor_le_one (obs : List Observation) (t : ℚ) :
    survFactor obs t ≤ 1 := by
  unfold survFactor
  have h : 0 ≤ (numEventsAtTime obs t : ℚ) / ((patientsAtTime obs t).length : ℚ) :=
    div_nonneg (Nat.cast_nonneg _) (Nat.cast_nonneg _)
  linarith

lemma survAux_map_fst (obs : List Observation) :
    ∀ (ts : List ℚ) (p : ℚ), (survivalAux obs ts p).map Prod.fst = ts
  | [], _ => rfl
  | t :: ts, p => by
    simp only [survivalAux, List.map_cons]
    rw [survAux_map_fst obs ts]

/-- Starting from a nonnegative probability, every statistic the survival
loop produces stays within `[0, p]`. -/
lemma survAux_snd_bounds (obs : List Observation) :
    ∀ (ts : List ℚ) (p : ℚ), 0 ≤ p →
      ∀ x ∈ (survivalAux obs ts p).map Prod.snd, 0 ≤ x ∧ x ≤ p
  | [], _, _ => by simp [survivalAux]
  | t :: ts, p, hp => by
    intro x hx
    simp only [survivalAux, List.map_cons, List.mem_cons] at hx
    have hp' : 0 ≤ p * survFactor obs t :=
      mul_nonneg hp (survFactor_nonneg obs t)
    have hle : p * survFactor obs t ≤ p :=
      mul_le_of_le_one_right hp (survFactor_le_one obs t)
    rcases hx with rfl | hx
    · exact ⟨hp', hle⟩
    · obtain ⟨h0, h1⟩ := survAux_snd_bounds obs ts _ hp' x hx
      exact ⟨h0, h1.trans hle⟩

/-- The survival statistics fall monotonically step to step. -/
lemma survAux_chain (obs : List Observation) :
    ∀ (ts : List ℚ) (p : ℚ), 0 ≤ p →
      List.Chain' (fun a b => b ≤ a) ((survivalAux obs ts p).map Prod.snd)
  | [], _, _ => by simp [survivalAux]
  | t :: ts, p, hp => by
    have hp' : 0 ≤ p * survFactor obs t :=
      mul_nonneg hp (survFactor_nonneg obs t)
    simp only [survivalAux, List.map_cons]
    rw [List.chain'_cons']
    refine ⟨fun b hb => ?_, survAux_chain obs ts _ hp'⟩
    exact (survAux_snd_bounds obs ts _ hp' b (List.mem_of_mem_head? hb)).2

/-- A 0/1 indicator sum over rows whose events are all false is zero. -/
lemma indicatorSum_eq_zero :
    ∀ l : List Observation, (∀ o ∈ l, o.event = false) →
      ((l.map (fun o => if o.event then 1 else 0)).sum : ℕ) = 0
  | [], _ => rfl
  | a :: l, h => by
    simp only [List.map_cons, List.sum_cons]
    rw [h a (List.mem_cons_self a l),
      indicatorSum_eq_zero l (fun o ho => h o (List.mem_cons_of_mem a ho))]
    simp

/-- With no events anywhere, no time counts any event. -/
lemma numEventsAtTime_of_no_events (obs : List Observation)
    (hev : ∀ o ∈ obs, o.event = false) (t : ℚ) :
    numEventsAtTime obs t = 0 :=
  indicatorSum_eq_zero _ (fun o ho => hev o (List.mem_of_mem_filter ho))

/-! ### The sorted distinct time axis -/

lemma sortedTimes_sorted_le (obs : List Observation) :
    (sortedTimes obs).Sorted (· ≤ ·) :=
  List.sorted_insertionSort _ _

lemma sortedTimes_nodup (obs : List Observation) :
    (sortedTimes obs).Nodup :=
  ((List.perm_insertionSort _ _).nodup_iff).mpr (List.nodup_dedup _)

lemma sortedTimes_sorted_lt (obs : List Observation) :
    (sortedTimes obs).Sorted (· < ·) :=
  (sortedTimes_sorted_le obs).lt_of_le (sortedTimes_nodup obs)

lemma mem_sortedTimes (obs : List Observation) (t : ℚ) :
    t ∈ sortedTimes obs ↔ t ∈ obs.map Observation.time := by
  unfold sortedTimes
  rw [(List.perm_insertionSort _ _).mem_iff, List.mem_dedup]

lemma sortedTimes_length (obs : List Observation) :
    (sortedTimes obs).length = (obs.map Observation.time).dedup.length :=
  (List.perm_insertionSort _ _).length_eq

/-! ### Permutation invariance -/

lemma numEventsAtTime_perm {obs obs' : List Observation}
    (h : obs.Perm obs') (t : ℚ) :
    numEventsAtTime obs t = numEventsAtTime obs' t :=
  ((h.filter _).map _).sum_eq

lemma sortedTimes_perm_eq {obs obs' : List Observation} (h : obs.Perm obs') :
    sortedTimes obs = sortedTimes obs' := by
  have hperm : (sortedTimes obs).Perm (sortedTimes obs') :=
    (List.perm_insertionSort _ _).trans
      (((h.map _).dedup).trans (List.perm_insertionSort _ _).symm)
  exact List.eq_of_perm_of_sorted hperm (sortedTimes_sorted_le obs) (sortedTimes_sorted_le obs')

lemma cumAux_congr {obs obs' : List Observation} (n : ℕ)
    (h : ∀ t, numEventsAtTime obs t = numEventsAtTime obs' t) :
    ∀ (ts : List ℚ) (acc : ℚ),
      cumIncidenceAux obs n ts acc = cumIncidenceAux obs' n ts acc
  | [], _ => rfl
  | t :: ts, acc => by
    simp only [cumIncidenceAux, h t]
    rw [cumAux_congr n h ts]

/-! ### Flat curves when no event occurs -/

lemma cumAux_snd_of_no_events (obs : List Observation) (n : ℕ)
    (h : ∀ t, numEventsAtTime obs t = 0) :
    ∀ (ts : List ℚ) (acc : ℚ),
      ∀ x ∈ (cumIncidenceAux obs n ts acc).map Prod.snd, x = acc
  | [], _ => by simp [cumIncidenceAux]
  | t :: ts, acc => by
    intro x hx
    simp only [cumIncidenceAux, h t, Nat.cast_zero, zero_div, add_zero,
      List.map_cons, List.mem_cons] at hx
    rcases hx with rfl | hx
    · rfl
    · exact cumAux_snd_of_no_events obs n h ts acc x hx

lemma survFactor_of_no_events {obs : List Observation} {t : ℚ}
    (h : numEventsAtTime obs t = 0) : survFactor obs t = 1 := by
  unfold survFactor
  rw [h]
  simp

lemma survAux_snd_of_factor_one (obs : List Observation)
    (h : ∀ t, survFactor obs t = 1) :
    ∀ (ts : List ℚ) (p : ℚ),
      ∀ x ∈ (survivalAux obs ts p).map Prod.snd, x = p
  | [], _ => by simp [survivalAux]
  | t :: ts, p => by
    intro x hx
    simp only [survivalAux, h t, mul_one, List.map_cons, List.mem_cons] at hx
    rcases hx with rfl | hx
    · rfl
    · exact survAux_snd_of_factor_one obs h ts p x hx

lemma survAux_length (obs : List Observation) (ts : List ℚ) (p : ℚ) :
    (survivalAux obs ts p).length = ts.length := by
  have h := congrArg List.length (survAux_map_fst obs ts p)
  simpa using h

/-! ### Concrete inputs used to instantiate the theorems -/

/-- Two observations with no event at all. -/
def noEventsObs : List Observation :=
  [⟨0, 1, false⟩, ⟨0, 4, false⟩]

/-- A two-row input and its row-swapped permutation. -/
def permRowsA : List Observation :=
  [⟨0, 1, true⟩, ⟨0, 2, false⟩]

/-- The rows of `permRowsA` in the opposite order. -/
def permRowsB : List Observation :=
  [⟨0, 2, false⟩, ⟨0, 1, true⟩]

end Aggregator

open Aggregator

/-- Evaluation of the source loop on the spec's Scenario 1/2 input.  At
`t = 1` the numerator counts both events (rows at times 1 and 3), so the
running sum is `2/3`, then `2/3 + 1/3 = 1`, then `1 + 1/3 = 4/3`. -/
lemma cumIncidence_scenario_eval : compute_cumulative_incidence scenarioObs =
    [(1, 2/3), (2, 1), (3, 4/3)] := by
  norm_num [compute_cumulative_incidence, cumIncidenceAux, sortedTimes,
    numEventsAtTime, patientsAtTime, scenarioObs, List.dedup, List.pwFilter,
    List.insertionSort, List.orderedInsert]

/-- C1: for every non-empty observation list, the `i`-th output pair of the
cumulative-incidence computation is the `i`-th ascending distinct time
together with the running sum of `events_at_or_after_t / n` over the first
`i+1` times, where the denominator `n = obs.length` is fixed once and the
sum starts at `0` and is never reset. -/
theorem cumulative_incidence_is_running_sum (obs : List Observation)
    (hne : obs ≠ []) (i : ℕ) (hi : i < (sortedTimes obs).length) :
    (compute_cumulative_incidence obs)[i]? =
      some ((sortedTimes obs)[i]?.getD 0,
        (((sortedTimes obs).take (i + 1)).map
          (fun t => (numEventsAtTime obs t : ℚ) / (obs.length : ℚ))).sum) := by
  have h := cumAux_getElem? obs obs.length (sortedTimes obs) 0 i hi
  simpa [compute_cumulative_incidence] using h

/-- Witness for C1 at the spec's Scenario input with `i = 2`. -/
theorem cumulative_incidence_is_running_sum_witness :
    scenarioObs ≠ [] ∧ 2 < (sortedTimes scenarioObs).length ∧
    (compute_cumulative_incidence scenarioObs)[2]? =
      some ((sortedTimes scenarioObs)[2]?.getD 0,
        (((sortedTimes scenarioObs).take 3).map
          (fun t => (numEventsAtTime scenarioObs t : ℚ) / (scenarioObs.length : ℚ))).sum) :=
  ⟨by decide, by decide,
    cumulative_incidence_is_running_sum scenarioObs (by decide) 2 (by decide)⟩

/-- C2: for every non-empty observation list, the statistics output by the
cumulative-incidence computation form a non-decreasing sequence: each value
is at least the previous one. -/
theorem cumulative_incidence_nondecreasing (obs : List Observation)
    (hne : obs ≠ []) :
    List.Chain' (· ≤ ·) ((compute_cumulative_incidence obs).map Prod.snd) :=
  cumAux_chain obs obs.length (sortedTimes obs) 0

/-- Witness for C2 at the spec's Scenario input. -/
theorem cumulative_incidence_nondecreasing_witness :
    scenarioObs ≠ [] ∧
    List.Chain' (· ≤ ·) ((compute_cumulative_incidence scenarioObs).map Prod.snd) :=
  ⟨by decide, cumulative_incidence_nondecreasing scenarioObs (by decide)⟩

/-- C3 counterexample: on the spec's Scenario input the first statistic the
code produces is `2/3`, which is not within the rounding tolerance
(`1/2000`, half of the last shown decimal) of the claimed `0.333`: at
`t = 1` the numerator counts both events (`time >= 1` holds for the rows at
times 1 and 3), not only the event at time 1. -/
theorem cumulative_incidence_scenario_differs :
    ((compute_cumulative_incidence scenarioObs).map Prod.snd)[0]? = some (2/3) ∧
    ¬ ((2 : ℚ)/3 - 333/1000 ≤ 1/2000) := by
  constructor
  · rw [cumIncidence_scenario_eval]
    rfl
  · norm_num

/-- C3 amended: on the input
`[(A, t=1, event=1), (A, t=2, event=0), (A, t=3, event=1)]` with `n = 3`
the cumulative-incidence computation returns exactly
`[(1, 2/3), (2, 1), (3, 4/3)]`, i.e. `[(1, 0.667), (2, 1.000), (3, 1.333)]`
at the rounding the spec shows. -/
theorem cumulative_incidence_scenario_values :
    compute_cumulative_incidence scenarioObs = [(1, 2/3), (2, 1), (3, 4/3)] :=
  cumIncidence_scenario_eval

/-- C4 counterexample: the statistic `4/3` occurs in the cumulative
incidence curve of the spec's Scenario input, and `4/3 > 1`, so curve
statistics do not always lie in `[0, 1]`. -/
theorem cumulative_incidence_exceeds_one :
    (4 : ℚ)/3 ∈ (compute_cumulative_incidence scenarioObs).map Prod.snd ∧
    ¬ ((4 : ℚ)/3 ≤ 1) := by
  constructor
  · rw [cumIncidence_scenario_eval]
    norm_num
  · norm_num

/-- C4 amended: in every produced curve the time values are strictly
increasing and every statistic is nonnegative; survival statistics moreover
lie in `[0, 1]`, while cumulative-incidence statistics may exceed `1`. -/
theorem curve_times_sorted_and_stat_bounds (obs : List Observation) :
    ((compute_cumulative_incidence obs).map Prod.fst).Sorted (· < ·) ∧
    (∀ p ∈ (compute_cumulative_incidence obs).map Prod.snd, 0 ≤ p) ∧
    ((compute_survival_curve obs).map Prod.fst).Sorted (· < ·) ∧
    (∀ p ∈ (compute_survival_curve obs).map Prod.snd, 0 ≤ p ∧ p ≤ 1) := by
  refine ⟨?_, ?_, ?_, ?_⟩
  · rw [show (compute_cumulative_incidence obs).map Prod.fst = sortedTimes obs from
      cumAux_map_fst obs obs.length (sortedTimes obs) 0]
    exact sortedTimes_sorted_lt obs
  · exact fun p hp => cumAux_snd_ge obs obs.length (sortedTimes obs) 0 p hp
  · rw [show (compute_survival_curve obs).map Prod.fst = sortedTimes obs from
      survAux_map_fst obs (sortedTimes obs) 1]
    exact sortedTimes_sorted_lt obs
  · exact fun p hp => survAux_snd_bounds obs (sortedTimes obs) 1 (by norm_num) p hp

/-- C5: for every non-empty observation list, the time axis of the produced
curve is exactly the distinct time values of the input, ascending, without
duplicates, with exactly one output pair per distinct time value. -/
theorem curve_time_axis_exact (obs : List Observation) (hne : obs ≠ []) :
    (compute_cumulative_incidence obs).map Prod.fst = sortedTimes obs ∧
    (sortedTimes obs).Sorted (· < ·) ∧
    (sortedTimes obs).Nodup ∧
    (∀ t, t ∈ sortedTimes obs ↔ t ∈ obs.map Observation.time) ∧
    (compute_cumulative_incidence obs).length = (obs.map Observation.time).dedup.length :=
  ⟨cumAux_map_fst obs obs.length (sortedTimes obs) 0,
   sortedTimes_sorted_lt obs,
   sortedTimes_nodup obs,
   mem_sortedTimes obs,
   (cumAux_length obs obs.length (sortedTimes obs) 0).trans (sortedTimes_length obs)⟩

/-- Witness for C5 at the spec's Scenario input. -/
theorem curve_time_axis_exact_witness :
    scenarioObs ≠ [] ∧
    ((compute_cumulative_incidence scenarioObs).map Prod.fst = sortedTimes scenarioObs ∧
    (sortedTimes scenarioObs).Sorted (· < ·) ∧
    (sortedTimes scenarioObs).Nodup ∧
    (∀ t, t ∈ sortedTimes scenarioObs ↔ t ∈ scenarioObs.map Observation.time) ∧
    (compute_cumulative_incidence scenarioObs).length =
      (scenarioObs.map Observation.time).dedup.length) :=
  ⟨by decide, curve_time_axis_exact scenarioObs (by decide)⟩

/-- C6: when every event indicator is false, every cumulative-incidence
statistic is `0` and every survival statistic is `1`. -/
theorem no_events_flat_curves (obs : List Observation) (hne : obs ≠ [])
    (hev : ∀ o ∈ obs, o.event = false) :
    (∀ p ∈ (compute_cumulative_incidence obs).map Prod.snd, p = 0) ∧
    (∀ p ∈ (compute_survival_curve obs).map Prod.snd, p = 1) := by
  have h0 : ∀ t, numEventsAtTime obs t = 0 := numEventsAtTime_of_no_events obs hev
  constructor
  · exact fun p hp => cumAux_snd_of_no_events obs obs.length h0 (sortedTimes obs) 0 p hp
  · exact fun p hp =>
      survAux_snd_of_factor_one obs (fun t => survFactor_of_no_events (h0 t))
        (sortedTimes obs) 1 p hp

/-- Witness for C6 at a concrete two-row event-free input. -/
theorem no_events_flat_curves_witness :
    (noEventsObs ≠ [] ∧ ∀ o ∈ noEventsObs, o.event = false) ∧
    ((∀ p ∈ (compute_cumulative_incidence noEventsObs).map Prod.snd, p = 0) ∧
     (∀ p ∈ (compute_survival_curve noEventsObs).map Prod.snd, p = 1)) :=
  ⟨⟨by decide, by decide⟩,
    no_events_flat_curves noEventsObs (by decide) (by decide)⟩

/-- C7: the cumulative-incidence computation is invariant under permuting
the input rows. -/
theorem cumulative_incidence_perm_invariant (obs obs' : List Observation)
    (h : obs.Perm obs') :
    compute_cumulative_incidence obs = compute_cumulative_incidence obs' := by
  unfold compute_cumulative_incidence
  rw [h.length_eq, sortedTimes_perm_eq h]
  exact cumAux_congr obs'.length (numEventsAtTime_perm h) (sortedTimes obs') 0

/-- Witness for C7: swapping the two rows of a concrete input leaves the
output unchanged. -/
theorem cumulative_incidence_perm_invariant_witness :
    permRowsA.Perm permRowsB ∧
    compute_cumulative_incidence permRowsA = compute_cumulative_incidence permRowsB :=
  ⟨List.Perm.swap _ _ _,
    cumulative_incidence_perm_invariant permRowsA permRowsB (List.Perm.swap _ _ _)⟩

/-- C8 counterexample: on the empty observation list the computation does
not signal any error — it succeeds and produces the empty curve. -/
theorem empty_input_no_error_signaled :
    isError (compute_cumulative_incidenceE []) = false ∧
    compute_cumulative_incidenceE [] = Except.ok [] :=
  ⟨rfl, rfl⟩

/-- C8 amended: when the observation sequence of a group is empty, the
operation signals no error and produces an empty curve (zero pairs) for
that group. -/
theorem empty_group_yields_empty_curve (cohort : List Observation) (g : ℕ)
    (h : groupObservations cohort g = []) :
    compute_cumulative_incidenceE (groupObservations cohort g) = Except.ok [] := by
  rw [h]
  rfl

/-- Witness for the amended C8: group `7` is absent from the Scenario
cohort, and its computation succeeds with the empty curve. -/
theorem empty_group_yields_empty_curve_witness :
    groupObservations scenarioObs 7 = [] ∧
    compute_cumulative_incidenceE (groupObservations scenarioObs 7) = Except.ok [] :=
  ⟨by decide, empty_group_yields_empty_curve scenarioObs 7 (by decide)⟩

/-- C9 (survival modelled from spec §4.1): for every non-empty observation
list the survival curve is non-increasing in probability, strictly ordered
in time, one point per distinct time value, with every probability in
`[0, 1]`. -/
theorem survival_curve_guarantees (obs : List Observation) (hne : obs ≠ []) :
    List.Chain' (fun a b => b ≤ a) ((compute_survival_curve obs).map Prod.snd) ∧
    ((compute_survival_curve obs).map Prod.fst).Sorted (· < ·) ∧
    (compute_survival_curve obs).length = (obs.map Observation.time).dedup.length ∧
    ∀ p ∈ (compute_survival_curve obs).map Prod.snd, 0 ≤ p ∧ p ≤ 1 := by
  refine ⟨survAux_chain obs (sortedTimes obs) 1 (by norm_num), ?_, ?_, ?_⟩
  · rw [show (compute_survival_curve obs).map Prod.fst = sortedTimes obs from
      survAux_map_fst obs (sortedTimes obs) 1]
    exact sortedTimes_sorted_lt obs
  · exact (survAux_length obs (sortedTimes obs) 1).trans (sortedTimes_length obs)
  · exact fun p hp => survAux_snd_bounds obs (sortedTimes obs) 1 (by norm_num) p hp

/-- Witness for C9 at the spec's Scenario input. -/
theorem survival_curve_guarantees_witness :
    scenarioObs ≠ [] ∧
    (List.Chain' (fun a b => b ≤ a) ((compute_survival_curve scenarioObs).map Prod.snd) ∧
    ((compute_survival_curve scenarioObs).map Prod.fst).Sorted (· < ·) ∧
    (compute_survival_curve scenarioObs).length =
      (scenarioObs.map Observation.time).dedup.length ∧
    ∀ p ∈ (compute_survival_curve scenarioObs).map Prod.snd, 0 ≤ p ∧ p ≤ 1) :=
  ⟨by decide, survival_curve_guarantees scenarioObs (by decide)⟩

/-- C10: on the empty observation list the computation returns the empty
pair list and no error: the time list is empty, so the loop body — and with
it the division by the group size — never runs. -/
theorem empty_input_empty_output :
    compute_cumulative_incidence [] = [] ∧
    sortedTimes [] = [] ∧
    compute_cumulative_incidenceE [] = Except.ok [] :=
  ⟨rfl, rfl, rfl⟩
